import Mathlib

/-!
Verification of the timestamp-resolution and encode-job-assembly core of the
`dvarchiver` repository (`src/_util.py`, `src/mv_datetime.py`,
`src/render_datetime.py`).

The Python code is shallowly embedded: pure functions become Lean functions,
Python exceptions become an explicit `Except` error channel, and the external
collaborators (`mediainfo`, `exiftool`, the `ffmpeg` process) are modelled by
a `MediaFile` record of the metadata fields the code reads and by an
exit-code parameter for the encoder run.

A Python `datetime.datetime` (naive, second resolution; the code never
constructs sub-second values) is represented by its count of seconds since
`datetime.min` (0001-01-01 00:00:00); the representable range is
`[0, maxSecs]` with `maxSecs` the second count of 9999-12-31 23:59:59, and
arithmetic leaving that range raises `OverflowError`, as in CPython.
-/

namespace DV

/-- Python exception kinds raised by the embedded code. -/
inductive PyErr where
  | valueError
  | typeError
  | overflowError
  deriving DecidableEq, Repr

/-- ASCII decimal digit test, modelling `\d` of the `re` patterns used by the
code (the code only ever feeds ASCII metadata strings). -/
def isDig (c : Char) : Bool := ('0' ≤ c && c ≤ '9')

/-- Numeric value of a list of decimal digit characters, modelling `int(s)`
on a digit string. -/
def digVal (l : List Char) : Nat :=
  l.foldl (fun a c => a * 10 + (c.toNat - 48)) 0

/-- Python `str.isspace` characters relevant to `str.strip()` (ASCII part). -/
def isPySpace (c : Char) : Bool :=
  c = ' ' || c = '\t' || c = '\n' || c = '\x0d' || c = '\x0b' || c = '\x0c'

/-- Python `str.strip()` on a character list. -/
def pyStrip (l : List Char) : List Char :=
  ((l.dropWhile isPySpace).reverse.dropWhile isPySpace).reverse

/-- Python `str.strip()` on a string. -/
def pyStripS (s : String) : String := ⟨pyStrip s.data⟩

/-! ## Calendar arithmetic (the parts of CPython `datetime` the code uses) -/

/-- Proleptic-Gregorian leap-year test (CPython `_is_leap`). -/
def isLeap (y : Nat) : Bool := y % 4 = 0 && (y % 100 ≠ 0 || y % 400 = 0)

/-- Days in a month (CPython `_days_in_month`). -/
def daysInMonth (y m : Nat) : Nat :=
  if m = 2 then (if isLeap y then 29 else 28)
  else if m = 4 || m = 6 || m = 9 || m = 11 then 30
  else 31

/-- Days before the first day of month `m` of year `y`
(CPython `_days_before_month`). -/
def daysBeforeMonth (y m : Nat) : Nat :=
  let base :=
    match m with
    | 1 => 0 | 2 => 31 | 3 => 59 | 4 => 90 | 5 => 120 | 6 => 151
    | 7 => 181 | 8 => 212 | 9 => 243 | 10 => 273 | 11 => 304 | _ => 334
  if 2 < m && isLeap y then base + 1 else base

/-- Days before January 1st of year `y` (CPython `_days_before_year`). -/
def daysBeforeYear (y : Nat) : Nat :=
  let p := y - 1
  365 * p + p / 4 - p / 100 + p / 400

/-- 0-based day number of a calendar date, counted from 0001-01-01. -/
def daysFromCivil (y m d : Nat) : Nat :=
  daysBeforeYear y + daysBeforeMonth y m + (d - 1)

/-- Seconds from `datetime.min` to `datetime.max` (at second resolution). -/
def maxSecs : Nat := daysFromCivil 9999 12 31 * 86400 + 86399

/-- A naive Python `datetime` value, as seconds since 0001-01-01 00:00:00.
Values produced by the embedded code always lie in `[0, maxSecs]`. -/
structure DateTime where
  secs : Nat
  deriving DecidableEq, Repr

/-- The `.hour` attribute. -/
def DateTime.hour (dt : DateTime) : Nat := dt.secs % 86400 / 3600

/-- The `.minute` attribute. -/
def DateTime.minute (dt : DateTime) : Nat := dt.secs % 3600 / 60

/-- The `.second` attribute. -/
def DateTime.second (dt : DateTime) : Nat := dt.secs % 60

/-- Calendar date of a 0-based day number (CPython `_ord2ymd`, shifted to a
0-based count from 0001-01-01): returns `(year, month, day)`. -/
def ord2ymd (n : Nat) : Nat × Nat × Nat :=
  let n400 := n / 146097
  let r400 := n % 146097
  let n100 := r400 / 36524
  let r100 := r400 % 36524
  let n4 := r100 / 1461
  let r4 := r100 % 1461
  let n1 := r4 / 365
  let r1 := r4 % 365
  let year := n400 * 400 + n100 * 100 + n4 * 4 + n1 + 1
  if n1 = 4 || n100 = 4 then
    (year - 1, 12, 31)
  else
    -- find the month containing day-of-year `r1`
    let rec findMonth : Nat → Nat → Nat → Nat × Nat
      | m, doy, fuel =>
        match fuel with
        | 0 => (m, doy + 1)
        | fuel + 1 =>
          let dim := daysInMonth year m
          if doy < dim then (m, doy + 1) else findMonth (m + 1) (doy - dim) fuel
    let (m, d) := findMonth 1 r1 12
    (year, m, d)

/-- The `.year` attribute. -/
def DateTime.year (dt : DateTime) : Nat := (ord2ymd (dt.secs / 86400)).1

/-- The `.month` attribute. -/
def DateTime.month (dt : DateTime) : Nat := (ord2ymd (dt.secs / 86400)).2.1

/-- The `.day` attribute. -/
def DateTime.day (dt : DateTime) : Nat := (ord2ymd (dt.secs / 86400)).2.2

/-- The `datetime.datetime(y, m, d, h, mi, s)` constructor: `none` models the
`ValueError` CPython raises on out-of-range components. -/
def mkDateTime (y m d h mi s : Nat) : Option DateTime :=
  if 1 ≤ y ∧ y ≤ 9999 ∧ 1 ≤ m ∧ m ≤ 12 ∧ 1 ≤ d ∧ d ≤ daysInMonth y m
      ∧ h ≤ 23 ∧ mi ≤ 59 ∧ s ≤ 59 then
    some ⟨daysFromCivil y m d * 86400 + h * 3600 + mi * 60 + s⟩
  else
    none

/-- Shift `dt + timedelta(seconds = delta)` (or `-` for negative `delta`):
`OverflowError` when the result leaves the representable range. -/
def addSecs (dt : DateTime) (delta : Int) : Except PyErr DateTime :=
  let r : Int := (dt.secs : Int) + delta
  if 0 ≤ r ∧ r ≤ (maxSecs : Int) then .ok ⟨r.toNat⟩ else .error .overflowError

/-! ## Models of the `re` patterns used by the code

Each pattern is embedded as a deterministic parser over `List Char`.  The
patterns only place optional groups in positions where greedy matching with
backtracking coincides with "try the group, fall back if it fails", which is
what the `Option` structure implements. -/

/-- Two decimal digits `(\d\d)`: the matched characters and the rest. -/
def dig2 : List Char → Option (List Char × List Char)
  | c1 :: c2 :: r => if isDig c1 && isDig c2 then some ([c1, c2], r) else none
  | _ => none

/-- Four decimal digits `(\d\d\d\d)`. -/
def dig4 (l : List Char) : Option (List Char × List Char) :=
  (dig2 l).bind fun (a, r) => (dig2 r).map fun (b, r2) => (a ++ b, r2)

/-- The character class `[-|:]` of `get_datetime_fromstr`'s pattern: note it
contains the literal `|`, not alternation. -/
def dateSep (c : Char) : Bool := c = '-' || c = '|' || c = ':'

/-- One separator character accepted by `p`. -/
def sepBy (p : Char → Bool) : List Char → Option (List Char)
  | c :: r => if p c then some r else none
  | [] => none

/-- The inner optional group `(:(\d\d))?` of the time part: the seconds
group, absent when the group fails to match. -/
def trySS (l : List Char) : Option (List Char) :=
  match l with
  | ':' :: r => (dig2 r).map (·.1)
  | _ => none

/-- The optional time group `( (\d\d):(\d\d)(:(\d\d))?)?`: hour and minute
characters plus the optional seconds group; `none` when the whole group
fails to match. -/
def tryTime (l : List Char) : Option (List Char × List Char × Option (List Char)) :=
  match l with
  | ' ' :: r =>
    (dig2 r).bind fun (hh, r1) =>
      match r1 with
      | ':' :: r2 => (dig2 r2).map fun (mm, r3) => (hh, mm, trySS r3)
      | _ => none
  | _ => none

/-- Model of `re.match` of `^(\d\d\d\d)S(\d\d)S(\d\d)( (\d\d):(\d\d)(:(\d\d))?)?` for
a date-separator class `S`: the year/month/day character groups and the
optional time groups.  `re.match` only anchors at the start, so trailing
characters are ignored. -/
def matchDTWith (sep : Char → Bool) (l : List Char) :
    Option (List Char × List Char × List Char × Option (List Char × List Char × Option (List Char))) :=
  (dig4 l).bind fun (y, r1) =>
  (sepBy sep r1).bind fun r2 =>
  (dig2 r2).bind fun (mo, r3) =>
  (sepBy sep r3).bind fun r4 =>
  (dig2 r4).map fun (d, r5) =>
  (y, mo, d, tryTime r5)

/-- The pattern of `_util.get_datetime_fromstr`, whose date separator is the
class `[-|:]`. -/
def matchLenientDT (l : List Char) := matchDTWith dateSep l

/-- The pattern applied to `datetime_opt` in `render_datetime` (line 174),
whose date separator is only the literal `-`. -/
def matchStrictDT (l : List Char) := matchDTWith (fun c => c = '-') l

/-- Function `_util.get_datetime_fromstr`: parse a datetime string leniently; missing
hour/minute default to 12:00 (noon), missing seconds to 00.  `.ok none`
models returning `None` (no regex match); `.error .valueError` models the
uncaught `ValueError` from `datetime()` on out-of-range components. -/
def get_datetime_fromstr (s : String) : Except PyErr (Option DateTime) :=
  match matchLenientDT s.data with
  | none => .ok none
  | some (y, mo, d, t) =>
    let hh := match t with | some (hh, _, _) => hh | none => ['1', '2']
    let mm := match t with | some (_, mm, _) => mm | none => ['0', '0']
    let ss := match t with | some (_, _, some ss) => ss | _ => ['0', '0']
    match mkDateTime (digVal y) (digVal mo) (digVal d) (digVal hh) (digVal mm) (digVal ss) with
    | some dt => .ok (some dt)
    | none => .error .valueError

/-- The character class `[+|-]` of the offset pattern: note it contains the
literal `|`, not alternation, so `|` is accepted where a sign is expected. -/
def polChar (c : Char) : Bool := c = '+' || c = '|' || c = '-'

/-- Tail `:(\d\d)(:(\d\d))?$` of the offset pattern after the hour, under
`re.fullmatch` (the input must be consumed entirely): minutes and optional
seconds values. -/
def matchOffTail (l : List Char) : Option (Nat × Option Nat) :=
  match l with
  | ':' :: r =>
    (dig2 r).bind fun (mm, r2) =>
      match r2 with
      | [] => some (digVal mm, none)
      | ':' :: r3 =>
        (dig2 r3).bind fun (ss, r4) =>
          if r4 = [] then some (digVal mm, some (digVal ss)) else none
      | _ => none
  | _ => none

/-- The hour group `(0?\d)` followed by the tail, with the greedy/backtrack
behaviour of `0?`: prefer consuming a leading literal `0`, fall back to the
one-digit reading when the rest fails. -/
def matchOffHourTail : List Char → Option (Nat × Nat × Option Nat)
  | '0' :: c :: r =>
    if isDig c then
      match matchOffTail r with
      | some (mm, ss) => some (digVal [c], mm, ss)
      | none => (matchOffTail (c :: r)).map fun (mm, ss) => (0, mm, ss)
    else
      (matchOffTail (c :: r)).map fun (mm, ss) => (0, mm, ss)
  | c :: r =>
    if isDig c then (matchOffTail r).map fun (mm, ss) => (digVal [c], mm, ss) else none
  | [] => none

/-- Model of `re.fullmatch` of `([+|-]?)(0?\d):(\d\d)(:(\d\d))?` (the offset pattern
of `_util.get_datetime_fromfile`): optional polarity character, hour, minute
and optional second values.  A consumed polarity character is never a digit,
so falling back to the empty polarity after a failed tail cannot succeed. -/
def matchOffset (l : List Char) : Option (Option Char × Nat × Nat × Option Nat) :=
  match l with
  | c :: r =>
    if polChar c then (matchOffHourTail r).map fun (h, mm, ss) => (some c, h, mm, ss)
    else (matchOffHourTail l).map fun (h, mm, ss) => (none, h, mm, ss)
  | [] => none

/-- The offset-correction block of `_util.get_datetime_fromfile` (its last
`if` statement): parse `offset.strip()` with the offset pattern; on a match
add or subtract the duration (subtract exactly when the polarity group is
`-`), otherwise return the timestamp unchanged. -/
def applyOffset (dt : DateTime) (offset : Option String) : Except PyErr DateTime :=
  match offset with
  | none => .ok dt
  | some o =>
    match matchOffset (pyStrip o.data) with
    | none => .ok dt
    | some (pol, h, mm, ss) =>
      let delta : Int := h * 3600 + mm * 60 + ss.getD 0
      if pol = some '-' then addSecs dt (-delta) else addSecs dt delta

/-- The metadata fields of one input movie file, as the external collaborators
(`mediainfo`, `exiftool`) would report them.  `height` and `frameRate` are
kept as already-converted numbers (the code applies `int()` / `float()` to
the raw field; those strings are assumed well formed here), `frameRate`
exactly as a rational. -/
structure MediaFile where
  recordedDate : String
  dateTimeOriginal : Option String
  height : Int
  frameRate : ℚ
  samplingRate : String

/-- Function `_util.get_datetime_fromfile`: resolve from the primary `Recorded_Date`
field, then from the `DateTimeOriginal` exif tag, then apply the offset
correction.  When the primary field is unparsable and the exif tag is absent
the code calls `re.match` on `None`, which raises `TypeError`. -/
def get_datetime_fromfile (f : MediaFile) (offset : Option String) :
    Except PyErr (Option DateTime) :=
  match get_datetime_fromstr f.recordedDate with
  | .error e => .error e
  | .ok (some dt) => (applyOffset dt offset).map some
  | .ok none =>
    match f.dateTimeOriginal with
    | none => .error .typeError
    | some s =>
      match get_datetime_fromstr s with
      | .error e => .error e
      | .ok none => .ok none
      | .ok (some dt) => (applyOffset dt offset).map some

/-- Function `mv_datetime.get_datetime`: an explicitly supplied datetime string that
parses takes precedence; only otherwise is the file consulted (and only
there is the offset ever used). -/
def get_datetime (f : MediaFile) (datetime_opt : String) (offset : Option String) :
    Except PyErr (Option DateTime) :=
  match get_datetime_fromstr datetime_opt with
  | .error e => .error e
  | .ok (some dt) => .ok (some dt)
  | .ok none => get_datetime_fromfile f offset

/-! ## Dictionaries and argument parsing (`render_datetime.py`) -/

/-- A Python value stored in one of the keyword dictionaries.  Numeric values
the code keeps as Python numbers are embedded exactly (`int` as `Int`,
`float` results of exact field data as `ℚ`); the two `enable` expression
strings, whose text interpolates a float, are kept structured. -/
inductive PVal where
  | str (v : String)
  | int (n : Int)
  | rat (q : ℚ)
  | boolTrue
  | gteT (a : Int)
  | betweenT (a b : Int)
  deriving DecidableEq, Repr

/-- A Python `dict` with string keys, as an insertion-ordered association
list with unique keys. -/
abbrev Dict := List (String × PVal)

/-- Assignment `d[k] = v`: replace in place when the key exists, else append. -/
def dictSet : Dict → String → PVal → Dict
  | [], k, v => [(k, v)]
  | kv :: t, k, v => if kv.1 = k then (k, v) :: t else kv :: dictSet t k v

/-- Lookup `d.get(k)`. -/
def dget : Dict → String → Option PVal
  | [], _ => none
  | kv :: t, k => if kv.1 = k then some kv.2 else dget t k

/-- Removal `d.pop(k, None)` with the remaining dictionary. -/
def dictRemove : Dict → String → Dict
  | [], _ => []
  | kv :: t, k => if kv.1 = k then t else kv :: dictRemove t k

/-- Merge `d1 | d2` / `d1 |= d2`: merge, the right operand winning. -/
def dictMerge (d1 d2 : Dict) : Dict :=
  d2.foldl (fun d kv => dictSet d kv.1 kv.2) d1

/-- Python `s.split(c)` on a character list (splits at every occurrence;
the empty input yields one empty piece). -/
def splitOnChar (c : Char) : List Char → List (List Char)
  | [] => [[]]
  | x :: r =>
    if x = c then [] :: splitOnChar c r
    else
      match splitOnChar c r with
      | h :: t => (x :: h) :: t
      | [] => [[x]]

/-- Python `s.split(c, 1)`: the part before the first occurrence, and the
rest when the character occurs. -/
def splitFirst (c : Char) : List Char → List Char × Option (List Char)
  | [] => ([], none)
  | x :: r =>
    if x = c then ([], some r)
    else
      let (a, b) := splitFirst c r
      (x :: a, b)

/-- Single pass behind `pySplitWS`, accumulating the current token
(reversed). -/
def pySplitWSAux : List Char → List Char → List (List Char)
  | [], acc => if acc = [] then [] else [acc.reverse]
  | c :: r, acc =>
    if isPySpace c then
      if acc = [] then pySplitWSAux r [] else acc.reverse :: pySplitWSAux r []
    else pySplitWSAux r (c :: acc)

/-- Python `s.split()`: split on whitespace runs, dropping empty pieces. -/
def pySplitWS (l : List Char) : List (List Char) := pySplitWSAux l []

/-- Function `render_datetime.parse_filter_args_to_dict`: split the argument on the
first `=` into the filter name and the parameter list, split the parameter
list at every `:`, and split each stripped segment with `pair.split('=')` —
which unpacks into a key/value pair only when the segment carries exactly
one `=` and raises `ValueError` otherwise; a segment without `=` becomes a
key with value `True`. -/
def parse_filter_args_to_dict (s : String) : Except PyErr Dict :=
  let (p0, rest) := splitFirst '=' s.data
  let d0 : Dict := [("name", .str ⟨pyStrip p0⟩)]
  match rest with
  | none => .ok d0
  | some r =>
    (splitOnChar ':' r).foldlM (fun d pair =>
      let pp := pyStrip pair
      match splitOnChar '=' pp with
      | [k] => .ok (dictSet d ⟨k⟩ .boolTrue)
      | [k, v] => .ok (dictSet d ⟨pyStrip k⟩ (.str ⟨pyStrip v⟩))
      | _ => .error .valueError) d0

/-- Function `render_datetime.parse_string_to_dict`: scan whitespace-separated
tokens; a token starting with `-` becomes a key (without the dash) whose
value is the following token unless that also starts with `-` (or is
absent), in which case the value is `True`. -/
def parse_string_to_dict_go : List (List Char) → Dict → Dict
  | [], d => d
  | p :: rest, d =>
    match p with
    | '-' :: key =>
      let v : PVal :=
        match rest with
        | q :: _ => if q.head? = some '-' then .boolTrue else .str ⟨q⟩
        | [] => .boolTrue
      parse_string_to_dict_go rest (dictSet d ⟨key⟩ v)
    | _ => parse_string_to_dict_go rest d

/-- Function `render_datetime.parse_string_to_dict` (see `parse_string_to_dict_go`). -/
def parse_string_to_dict (s : String) : Dict :=
  parse_string_to_dict_go (pySplitWS s.data) []

/-! ## Path helpers (`os.path`, POSIX flavour) -/

/-- Model of `os.path.basename`. -/
def pyBasename (s : String) : String :=
  ⟨(s.data.reverse.takeWhile (· ≠ '/')).reverse⟩

/-- Model of `os.path.join` for one extra component. -/
def pyJoin (a b : String) : String :=
  if b.data.head? = some '/' then b
  else if a = "" then b
  else if a.data.getLast? = some '/' then a ++ b
  else a ++ "/" ++ b

/-- Model of `os.path.splitext`: split off the extension at the last `.` of the last
component, unless every character of the component before it is a `.`
(CPython `genericpath._splitext`). -/
def splitext (p : String) : String × String :=
  let l := p.data
  let n := l.length
  let si : Int := match l.reverse.findIdx? (· = '/') with
    | some j => (n : Int) - 1 - j
    | none => -1
  let di : Int := match l.reverse.findIdx? (· = '.') with
    | some j => (n : Int) - 1 - j
    | none => -1
  if si < di then
    if (List.range n).any (fun k => si < (k : Int) ∧ (k : Int) < di ∧ l.getD k ' ' ≠ '.') then
      (⟨l.take di.toNat⟩, ⟨l.drop di.toNat⟩)
    else (p, "")
  else (p, "")

/-! ## The encode-job assembly of `render_datetime.render_datetime` -/

/-- Model of `re.match` of `^(\d\d\d\d)-(\d\d)-(\d\d) (\d\d):(\d\d):(\d\d)` (the
pattern applied to the `Recorded_Date` field in `render_datetime`, line
189): all six groups are mandatory. -/
def matchFullDT (l : List Char) :
    Option (List Char × List Char × List Char × List Char × List Char × List Char) :=
  (dig4 l).bind fun (y, r1) =>
  (sepBy (· = '-') r1).bind fun r2 =>
  (dig2 r2).bind fun (mo, r3) =>
  (sepBy (· = '-') r3).bind fun r4 =>
  (dig2 r4).bind fun (d, r5) =>
  (sepBy (· = ' ') r5).bind fun r6 =>
  (dig2 r6).bind fun (hh, r7) =>
  (sepBy (· = ':') r7).bind fun r8 =>
  (dig2 r8).bind fun (mm, r9) =>
  (sepBy (· = ':') r9).bind fun r10 =>
  (dig2 r10).map fun (ss, _) =>
  (y, mo, d, hh, mm, ss)

/-- An `ffmpeg-python` stream node, as assembled by `render_datetime`. -/
inductive PStream where
  /-- `ffmpeg.input(path).video` -/
  | videoStream (path : String)
  /-- `ffmpeg.input(path)[sel]` (the audio selector `a:0`) -/
  | audioStream (path : String) (sel : String)
  /-- `ffmpeg.input(tmp_wav, **kw).audio` — the lossless bounce re-read -/
  | wavInput (path : String) (kw : Dict)
  /-- `ffmpeg.filter(src, name, **kw)` -/
  | filt (src : PStream) (name : PVal) (kw : Dict)
  /-- `ffmpeg.drawtext(src, x, y, **kw)` -/
  | drawtext (src : PStream) (x y : String) (kw : Dict)
  deriving DecidableEq, Repr

/-- The error exits of `render_datetime` before a job is assembled. -/
inductive RenderErr where
  /-- "Output will overwrite input" (line 167, `return 1`) -/
  | identityOutput
  /-- no explicit datetime and no parsable `Recorded_Date` (line 191) -/
  | noDatetime
  /-- an uncaught Python exception -/
  | py (e : PyErr)
  deriving DecidableEq, Repr

/-- The arguments of `render_datetime` (CLI options plus the globals the
function reads).  `outputIsDir` stands for the `os.path.isdir(output)`
probe.  `sec_begin`/`sec_len` are modelled at whole-second resolution (their
defaults `1.0`/`4.0` are whole; no claim involves fractional seconds) and
`text_size` exactly as a rational. -/
structure RenderParams where
  input : String
  output : String
  outputIsDir : Bool
  optext : Option String := none
  sec_begin : Int := 1
  sec_len : Int := 4
  show_tc : Bool := false
  show_date : Bool := true
  show_time : Bool := true
  datetime_opt : String := ""
  args_vfilter : List String := []
  args_afilter : List String := []
  args_encode : String := ""
  text_size : ℚ := 5
  text_color : String := "white"
  text_vpos : String := "b"
  yes : Bool := false
  bug : Bool := false
  simulate : Bool := false
  font_path : String := "font/CRR55.TTF"
  deriving Repr

/-- The encode job assembled by `render_datetime` and handed to
`ffmpeg.output(video, audio, output, **kwargs_output)`. -/
structure RenderJob where
  output : String
  fileext : String
  /-- the `datetime_s` f-string rebuilt from the matched groups (line 247) -/
  datetimeS : String
  kwargsOutput : Dict
  video : PStream
  audio : PStream
  deriving DecidableEq, Repr

/-- One iteration of the filter loops: parse the argument, pop `name`;
`none` when the popped name is `None` (the loop then leaves the stream
unchanged). -/
def filterOf (argstr : String) : Except RenderErr (Option (PVal × Dict)) :=
  match parse_filter_args_to_dict argstr with
  | .error e => .error (.py e)
  | .ok kw =>
    match dget kw "name" with
    | some nm => .ok (some (nm, dictRemove kw "name"))
    | none => .ok none

/-- Format `f'{n:02}'` for a natural number. -/
def pad02 (n : Nat) : String :=
  if n < 10 then "0" ++ toString n else toString n

/-- Lines 172–198 of `render_datetime`: the six matched group strings
(year, month, day, hour, minute, second), from the explicit `datetime_opt`
(with noon/zero defaults) when its pattern matches, otherwise from the
`Recorded_Date` field, otherwise the error exit. -/
def resolveGroups (p : RenderParams) (f : MediaFile) :
    Except RenderErr
      (List Char × List Char × List Char × List Char × List Char × List Char) :=
  match matchStrictDT p.datetime_opt.data with
  | some (y, mo, d, t) =>
    let hh := match t with | some (hh, _, _) => hh | none => ['1', '2']
    let mm := match t with | some (_, mm, _) => mm | none => ['0', '0']
    let ss := match t with | some (_, _, some ss) => ss | _ => ['0', '0']
    .ok (y, mo, d, hh, mm, ss)
  | none =>
    match matchFullDT f.recordedDate.data with
    | none => .error .noDatetime
    | some g => .ok g

/-- The video-filter loop (lines 297–304): fold the user video filter
arguments over the accumulated video stream. -/
def vchainFold (args : List String) (v0 : PStream) : Except RenderErr PStream :=
  args.foldlM (fun v argstr =>
    match filterOf argstr with
    | .error e => .error e
    | .ok (some (nm, rest)) => .ok (PStream.filt v nm rest)
    | .ok none => .ok v) v0

/-- The audio-filter loop (lines 309–313): each iteration filters the
fixed `audio` stream but stores the result in the `video` accumulator, as
the source does. -/
def achainFold (args : List String) (audio : PStream) (v0 : PStream) :
    Except RenderErr PStream :=
  args.foldlM (fun v argstr =>
    match filterOf argstr with
    | .error e => .error e
    | .ok (some (nm, rest)) => .ok (PStream.filt audio nm rest)
    | .ok none => .ok v) v0

/-- Lines 163–165 of `render_datetime`: when the given output is a
directory, the output file goes there under the input's base name. -/
def outputPath0 (p : RenderParams) : String :=
  if p.outputIsDir then pyJoin p.output (pyBasename p.input) else p.output

/-- Lines 208–209: a negative begin offset is clamped to 0. -/
def secBeginClamped (p : RenderParams) : Int :=
  if p.sec_begin < 0 then 0 else p.sec_begin

/-- Lines 207–222: the `enable` window expression plus the font keyword
arguments shared by both drawtext stages. -/
def kwargsEnableOf (p : RenderParams) (f : MediaFile) : Dict :=
  let sb := secBeginClamped p
  let kwargsEnable0 : Dict :=
    if p.sec_len < 0 then [("enable", .gteT sb)]
    else [("enable", .betweenT sb (sb + p.sec_len))]
  dictMerge kwargsEnable0
    [("fontfile", .str p.font_path), ("fontsize", .rat ((f.height : ℚ) * p.text_size / 100)),
     ("fontcolor", .str p.text_color), ("borderw", .int 2)]

/-- Lines 218–221: vertical text position. -/
def yposOf (p : RenderParams) : String :=
  if p.text_vpos = "t" then "2*lh" else "h-(2*lh)"

/-- Lines 228–233: the date drawtext keywords, from the clock advanced by
`sec_begin`. -/
def kwargsDateOf (p : RenderParams) (f : MediaFile) (dAdv : DateTime) : Dict :=
  let dateText := toString dAdv.year ++ "-" ++ pad02 dAdv.month ++ "-" ++ pad02 dAdv.day
  dictMerge [("text", .str (if p.show_date then dateText else ""))] (kwargsEnableOf p f)

/-- Lines 231–237: the time drawtext keywords; with `show_tc` the timecode
keywords (built from the original, unadvanced group strings) are merged on
top. -/
def kwargsTimeOf (p : RenderParams) (f : MediaFile) (dAdv : DateTime)
    (hh mm ss : List Char) : Dict :=
  let timeText := pad02 dAdv.hour ++ ":" ++ pad02 dAdv.minute
  let kwargsTime0 :=
    dictMerge [("text", .str (if p.show_time then timeText else ""))] (kwargsEnableOf p f)
  if p.show_time && p.show_tc then
    dictMerge kwargsTime0
      [("timecode", .str (⟨hh⟩ ++ ":" ++ ⟨mm⟩ ++ ":" ++ (⟨ss⟩ : String) ++ ";00")),
       ("rate", .rat f.frameRate), ("tc24hmax", .boolTrue), ("text", .str "")]
  else kwargsTime0

/-- Line 247: the `datetime_s` f-string rebuilt from the matched groups. -/
def datetimeSOf (y mo d hh mm ss : List Char) : String :=
  ⟨y⟩ ++ "-" ++ ⟨mo⟩ ++ "-" ++ ⟨d⟩ ++ " " ++ ⟨hh⟩ ++ ":" ++ ⟨mm⟩ ++ ":" ++ ⟨ss⟩

/-- Lines 248–254: the final output path and extension, after the optional
extension override (a leading `.` is added when missing). -/
def applyOptext (output0 : String) (optext : Option String) : String × String :=
  let root := (splitext output0).1
  let fileext0 := (splitext output0).2
  match optext with
  | none => (output0, fileext0)
  | some e =>
    let e2 := if e.data.head? = some '.' then e else "." ++ e
    (root ++ e2, e2)

/-- Lines 266–270: the output keyword dictionary — the parsed user encode
arguments first, then (overriding them) the creation-time metadata, with a
trailing `Z` and the `ntsc-dv` target exactly for the `.dv` extension. -/
def kwargsOutputOf (args_encode datetimeS fileext : String) : Dict :=
  if fileext = ".dv" then
    dictMerge (parse_string_to_dict args_encode)
      [("metadata", .str ("creation_time=" ++ datetimeS ++ "Z")),
       ("target", .str "ntsc-dv")]
  else
    dictMerge (parse_string_to_dict args_encode)
      [("metadata", .str ("creation_time=" ++ datetimeS))]

/-- Lines 274–294: the audio stream handed to the output — the `a:0`
selector of the input, or, under the `bug` bounce workaround, the re-read
of the intermediate raw PCM file. -/
def audioOf (p : RenderParams) (f : MediaFile) (tmp : String) : PStream :=
  if p.bug then
    let arate : String := ⟨(splitOnChar ' ' f.samplingRate.data).headD []⟩
    PStream.wavInput tmp [("f", .str "s16le"), ("ar", .str arate), ("ac", .int 2)]
  else PStream.audioStream p.input "a:0"

/-- Lines 305–308: the date and time drawtext stages appended to the video
chain when enabled. -/
def drawStages (p : RenderParams) (f : MediaFile) (dAdv : DateTime)
    (hh mm ss : List Char) (video1 : PStream) : PStream :=
  let video2 :=
    if p.show_date then
      PStream.drawtext video1 "w*0.02" (yposOf p) (kwargsDateOf p f dAdv)
    else video1
  if p.show_time then
    PStream.drawtext video2 "(w-tw)-(w*0.02)" (yposOf p) (kwargsTimeOf p f dAdv hh mm ss)
  else video2

/-- Function `render_datetime.render_datetime`, lines 161–314: the full assembly of
the encode job (output path fixing, timestamp resolution, drawtext keyword
construction, container-specific output keywords, bounce workaround and the
two filter loops), composed from the stage functions above.  `tmp` is the
`mkstemp` name used when `bug` is set, and the bounce pre-pass itself — an
external encoder invocation — is assumed to succeed.  The guards at lines
199–203 (`show_time` without an hour, and clearing `show_tc` without
seconds) are unreachable, because both parse branches assign all six
groups, so they have no residue here. -/
def render_datetime (p : RenderParams) (f : MediaFile) (tmp : String) :
    Except RenderErr RenderJob :=
  if p.input = outputPath0 p then .error .identityOutput
  else
    match resolveGroups p f with
    | .error e => .error e
    | .ok (y, mo, d, hh, mm, ss) =>
      match mkDateTime (digVal y) (digVal mo) (digVal d)
          (digVal hh) (digVal mm) (digVal ss) with
      | none => .error (.py .valueError)
      | some d0 =>
        match addSecs d0 (secBeginClamped p) with
        | .error e => .error (.py e)
        | .ok dAdv =>
          match vchainFold p.args_vfilter (PStream.videoStream p.input) with
          | .error e => .error e
          | .ok video1 =>
            -- the audio-filter loop of the source assigns its result to
            -- `video`, filtering the (never reassigned) `audio` stream
            match achainFold p.args_afilter (audioOf p f tmp)
                (drawStages p f dAdv hh mm ss video1) with
            | .error e => .error e
            | .ok video4 =>
              .ok ⟨(applyOptext (outputPath0 p) p.optext).1,
                   (applyOptext (outputPath0 p) p.optext).2,
                   datetimeSOf y mo d hh mm ss,
                   kwargsOutputOf p.args_encode (datetimeSOf y mo d hh mm ss)
                     (applyOptext (outputPath0 p) p.optext).2,
                   video4, audioOf p f tmp⟩

/-- Step 8 of `render_datetime` (lines 317–328): when not simulating, the
job is executed and — for every output extension — the tag copy-back
`copy_exifdata(input, output)` runs exactly when the encoder exited with
status 0. -/
def copy_exifdata_called (simulate : Bool) (rc : Int) : Bool :=
  !simulate && rc == 0

/-! ## Definitions used only to state the claims -/

/-- Whether a string carries a trailing literal `Z`. -/
def endsInZ (v : String) : Bool := v.data.getLast? = some 'Z'

/-- The string has exactly the shape `yyyy-mm-dd` (four digits, dash, two
digits, dash, two digits) with no time component. -/
def isDateOnlyShape (s : String) : Prop :=
  ∃ y1 y2 y3 y4 m1 m2 d1 d2 : Char,
    s.data = [y1, y2, y3, y4, '-', m1, m2, '-', d1, d2] ∧
    isDig y1 = true ∧ isDig y2 = true ∧ isDig y3 = true ∧ isDig y4 = true ∧
    isDig m1 = true ∧ isDig m2 = true ∧ isDig d1 = true ∧ isDig d2 = true

/-- The string has exactly the shape `yyyy-mm-dd HH:MM` with no seconds. -/
def isDateHMShape (s : String) : Prop :=
  ∃ y1 y2 y3 y4 m1 m2 d1 d2 h1 h2 n1 n2 : Char,
    s.data = [y1, y2, y3, y4, '-', m1, m2, '-', d1, d2, ' ', h1, h2, ':', n1, n2] ∧
    isDig y1 = true ∧ isDig y2 = true ∧ isDig y3 = true ∧ isDig y4 = true ∧
    isDig m1 = true ∧ isDig m2 = true ∧ isDig d1 = true ∧ isDig d2 = true ∧
    isDig h1 = true ∧ isDig h2 = true ∧ isDig n1 = true ∧ isDig n2 = true

/-- The filter-argument splitting rule exactly as the claim states it:
split on the first `=` to separate the name, split the remainder on `:`,
and split each parameter segment on its FIRST `=` into key and value, or
record the segment as a key with value `True` when it has no `=`. -/
def claimFilterSplit (s : String) : Dict :=
  let (p0, rest) := splitFirst '=' s.data
  let d0 : Dict := [("name", .str ⟨pyStrip p0⟩)]
  match rest with
  | none => d0
  | some r =>
    (splitOnChar ':' r).foldl (fun d pair =>
      let pp := pyStrip pair
      match splitFirst '=' pp with
      | (k, some v) => dictSet d ⟨pyStrip k⟩ (.str ⟨pyStrip v⟩)
      | (_, none) => dictSet d ⟨pp⟩ .boolTrue) d0

/-- The number of `=` characters in each `:`-separated parameter segment of
a filter argument (after the segment's whitespace strip, which cannot touch
`=`; empty when the argument has no parameter list). -/
def segEqCounts (s : String) : List Nat :=
  match splitFirst '=' s.data with
  | (_, none) => []
  | (_, some r) => (splitOnChar ':' r).map (fun pair => (pyStrip pair).count '=')

/-- The offset pattern exactly as the claim states it: an optional sign
(`+` or `-`), a single-digit hour optionally zero-padded, `:MM` and an
optional `:SS`, matching the whole string. -/
def claimOffsetPattern (s : String) : Bool :=
  match s.data with
  | c :: r =>
    if c = '+' || c = '-' then (matchOffHourTail r).isSome
    else (matchOffHourTail s.data).isSome
  | [] => false

/-- A sample input file: the primary `Recorded_Date` field carries
`2005-07-02 09:48:06` (the value used by the spec's end-to-end example). -/
def sampleFile : MediaFile :=
  ⟨"2005-07-02 09:48:06", none, 480, 2997 / 100, "48000 Hz"⟩

/-- A sample input file with an unparsable `Recorded_Date` and no exif
fallback. -/
def emptyFile : MediaFile := ⟨"", some "", 480, 2997 / 100, "48000 Hz"⟩

/-! ## Helper lemmas -/

theorem dget_dictSet_self (d : Dict) (k : String) (v : PVal) :
    dget (dictSet d k v) k = some v := by
  induction d with
  | nil => simp [dictSet, dget]
  | cons kv t ih =>
    by_cases h : kv.1 = k
    · simp [dictSet, dget, h]
    · simp [dictSet, dget, h, ih]

theorem dget_dictSet_ne (d : Dict) (k k2 : String) (v : PVal) (h : k2 ≠ k) :
    dget (dictSet d k v) k2 = dget d k2 := by
  induction d with
  | nil =>
    simp [dictSet, dget]
    exact fun hh => h hh.symm
  | cons kv t ih =>
    by_cases hk : kv.1 = k
    · subst hk; simp [dictSet, dget, h, Ne.symm h]
    · by_cases hk2 : kv.1 = k2 <;> simp [dictSet, dget, hk, hk2, ih, h]

theorem dig2_inv {l g r} (h : dig2 l = some (g, r)) :
    ∃ c1 c2, l = c1 :: c2 :: r ∧ g = [c1, c2] ∧ isDig c1 = true ∧ isDig c2 = true := by
  match l with
  | [] => simp [dig2] at h
  | [c] => simp [dig2] at h
  | c1 :: c2 :: t =>
    by_cases hd : isDig c1 && isDig c2
    · simp [dig2, hd] at h
      obtain ⟨hg, hr⟩ := h
      exact ⟨c1, c2, by rw [hr], hg.symm, by
        simpa using (Bool.and_eq_true _ _).mp hd |>.1, by
        simpa using (Bool.and_eq_true _ _).mp hd |>.2⟩
    · simp [dig2, hd] at h

theorem dig4_inv {l g r} (h : dig4 l = some (g, r)) :
    ∃ c1 c2 c3 c4, l = c1 :: c2 :: c3 :: c4 :: r ∧ g = [c1, c2, c3, c4] ∧
      isDig c1 = true ∧ isDig c2 = true ∧ isDig c3 = true ∧ isDig c4 = true := by
  unfold dig4 at h
  cases h2 : dig2 l with
  | none => rw [h2] at h; simp at h
  | some pr =>
    obtain ⟨a, r2⟩ := pr
    rw [h2] at h
    simp only [Option.some_bind] at h
    cases h3 : dig2 r2 with
    | none => rw [h3] at h; simp at h
    | some pr2 =>
      obtain ⟨b, r3⟩ := pr2
      rw [h3] at h
      simp at h
      obtain ⟨hg, hr⟩ := h
      obtain ⟨c1, c2, hl, ha, hd1, hd2⟩ := dig2_inv h2
      obtain ⟨c3, c4, hl2, hb, hd3, hd4⟩ := dig2_inv h3
      subst hr hl hl2 ha hb
      exact ⟨c1, c2, c3, c4, rfl, hg.symm, hd1, hd2, hd3, hd4⟩

theorem matchDTWith_shape10 (sep : Char → Bool)
    (y1 y2 y3 y4 m1 m2 d1 d2 sa sb : Char) (rest : List Char)
    (h1 : isDig y1 = true) (h2 : isDig y2 = true) (h3 : isDig y3 = true)
    (h4 : isDig y4 = true) (h5 : isDig m1 = true) (h6 : isDig m2 = true)
    (h7 : isDig d1 = true) (h8 : isDig d2 = true)
    (hsa : sep sa = true) (hsb : sep sb = true) :
    matchDTWith sep (y1 :: y2 :: y3 :: y4 :: sa :: m1 :: m2 :: sb :: d1 :: d2 :: rest) =
      some ([y1, y2, y3, y4], [m1, m2], [d1, d2], tryTime rest) := by
  simp [matchDTWith, dig4, dig2, sepBy, h1, h2, h3, h4, h5, h6, h7, h8, hsa, hsb]

theorem trySS_inv {l ss} (h : trySS l = some ss) :
    ∃ c1 c2, ss = [c1, c2] ∧ isDig c1 = true ∧ isDig c2 = true := by
  unfold trySS at h
  split at h
  · rename_i r
    cases hd : dig2 r with
    | none => rw [hd] at h; simp at h
    | some pr =>
      rw [hd] at h
      simp at h
      obtain ⟨c1, c2, _, hg, h1, h2⟩ := dig2_inv hd
      exact ⟨c1, c2, by rw [← h, hg], h1, h2⟩
  · simp at h

theorem tryTime_inv {l hh mm sso} (h : tryTime l = some (hh, mm, sso)) :
    ∀ ss, sso = some ss → ∃ c1 c2, ss = [c1, c2] ∧ isDig c1 = true ∧ isDig c2 = true := by
  unfold tryTime at h
  split at h
  · rename_i r
    cases hd : dig2 r with
    | none => rw [hd] at h; simp at h
    | some pr =>
      obtain ⟨hh0, r1⟩ := pr
      rw [hd] at h
      simp only [Option.some_bind] at h
      split at h
      · rename_i r2
        cases hd2 : dig2 r2 with
        | none => rw [hd2] at h; simp at h
        | some pr2 =>
          obtain ⟨mm0, r3⟩ := pr2
          rw [hd2] at h
          simp at h
          obtain ⟨-, -, hsso⟩ := h
          intro ss hss
          rw [← hsso] at hss
          exact trySS_inv hss
      · simp at h
  · simp at h

theorem matchFullDT_inv {l y mo d hh mm ss}
    (h : matchFullDT l = some (y, mo, d, hh, mm, ss)) :
    ∃ c1 c2, ss = [c1, c2] ∧ isDig c1 = true ∧ isDig c2 = true := by
  unfold matchFullDT at h
  cases h1 : dig4 l with
  | none => rw [h1] at h; simp at h
  | some pr =>
    obtain ⟨y0, r1⟩ := pr
    rw [h1] at h; simp only [Option.some_bind] at h
    cases h2 : sepBy (· = '-') r1 with
    | none => rw [h2] at h; simp at h
    | some r2 =>
      rw [h2] at h; simp only [Option.some_bind] at h
      cases h3 : dig2 r2 with
      | none => rw [h3] at h; simp at h
      | some pr2 =>
        obtain ⟨mo0, r3⟩ := pr2
        rw [h3] at h; simp only [Option.some_bind] at h
        cases h4 : sepBy (· = '-') r3 with
        | none => rw [h4] at h; simp at h
        | some r4 =>
          rw [h4] at h; simp only [Option.some_bind] at h
          cases h5 : dig2 r4 with
          | none => rw [h5] at h; simp at h
          | some pr3 =>
            obtain ⟨d0, r5⟩ := pr3
            rw [h5] at h; simp only [Option.some_bind] at h
            cases h6 : sepBy (· = ' ') r5 with
            | none => rw [h6] at h; simp at h
            | some r6 =>
              rw [h6] at h; simp only [Option.some_bind] at h
              cases h7 : dig2 r6 with
              | none => rw [h7] at h; simp at h
              | some pr4 =>
                obtain ⟨hh0, r7⟩ := pr4
                rw [h7] at h; simp only [Option.some_bind] at h
                cases h8 : sepBy (· = ':') r7 with
                | none => rw [h8] at h; simp at h
                | some r8 =>
                  rw [h8] at h; simp only [Option.some_bind] at h
                  cases h9 : dig2 r8 with
                  | none => rw [h9] at h; simp at h
                  | some pr5 =>
                    obtain ⟨mm0, r9⟩ := pr5
                    rw [h9] at h; simp only [Option.some_bind] at h
                    cases h10 : sepBy (· = ':') r9 with
                    | none => rw [h10] at h; simp at h
                    | some r10 =>
                      rw [h10] at h; simp only [Option.some_bind] at h
                      cases h11 : dig2 r10 with
                      | none => rw [h11] at h; simp at h
                      | some pr6 =>
                        obtain ⟨ss0, r11⟩ := pr6
                        rw [h11] at h
                        simp at h
                        obtain ⟨-, -, -, -, -, hss⟩ := h
                        obtain ⟨c1, c2, _, hg, hd1, hd2⟩ := dig2_inv h11
                        exact ⟨c1, c2, by rw [← hss, hg], hd1, hd2⟩

theorem matchDTWith_t_inv {sep l y mo d t}
    (h : matchDTWith sep l = some (y, mo, d, t)) : ∃ r5, t = tryTime r5 := by
  unfold matchDTWith at h
  cases h1 : dig4 l with
  | none => rw [h1] at h; simp at h
  | some pr =>
    obtain ⟨y0, r1⟩ := pr
    rw [h1] at h; simp only [Option.some_bind] at h
    cases h2 : sepBy sep r1 with
    | none => rw [h2] at h; simp at h
    | some r2 =>
      rw [h2] at h; simp only [Option.some_bind] at h
      cases h3 : dig2 r2 with
      | none => rw [h3] at h; simp at h
      | some pr2 =>
        obtain ⟨mo0, r3⟩ := pr2
        rw [h3] at h; simp only [Option.some_bind] at h
        cases h4 : sepBy sep r3 with
        | none => rw [h4] at h; simp at h
        | some r4 =>
          rw [h4] at h; simp only [Option.some_bind] at h
          cases h5 : dig2 r4 with
          | none => rw [h5] at h; simp at h
          | some pr3 =>
            obtain ⟨d0, r5⟩ := pr3
            rw [h5] at h
            simp at h
            exact ⟨r5, h.2.2.2.symm⟩

theorem resolveGroups_ss {p f y mo d hh mm ss}
    (h : resolveGroups p f = .ok (y, mo, d, hh, mm, ss)) :
    ∃ c1 c2, ss = [c1, c2] ∧ isDig c1 = true ∧ isDig c2 = true := by
  unfold resolveGroups at h
  cases hm : matchStrictDT p.datetime_opt.data with
  | some g =>
    obtain ⟨y0, mo0, d0, t⟩ := g
    rw [hm] at h
    simp at h
    obtain ⟨-, -, -, -, -, hss⟩ := h
    obtain ⟨r5, ht⟩ := matchDTWith_t_inv hm
    subst ht
    cases htt : tryTime r5 with
    | none =>
      rw [htt] at hss
      simp at hss
      subst hss
      exact ⟨'0', '0', rfl, rfl, rfl⟩
    | some tt =>
      obtain ⟨hh0, mm0, sso⟩ := tt
      rw [htt] at hss
      cases hsso : sso with
      | none =>
        subst hsso
        simp at hss
        subst hss
        exact ⟨'0', '0', rfl, rfl, rfl⟩
      | some ss0 =>
        subst hsso
        obtain ⟨c1, c2, he, hd1, hd2⟩ := tryTime_inv htt ss0 rfl
        simp at hss
        subst hss
        exact ⟨c1, c2, he, hd1, hd2⟩
  | none =>
    rw [hm] at h
    cases hf : matchFullDT f.recordedDate.data with
    | none => rw [hf] at h; simp at h
    | some g =>
      obtain ⟨y0, mo0, d0, hh0, mm0, ss0⟩ := g
      rw [hf] at h
      simp at h
      obtain ⟨-, -, -, -, -, hss⟩ := h
      obtain ⟨c1, c2, he, hd1, hd2⟩ := matchFullDT_inv hf
      exact ⟨c1, c2, by rw [← hss, he], hd1, hd2⟩

theorem mkDateTime_inv {y m d h mi s : Nat} {dt : DateTime}
    (hmk : mkDateTime y m d h mi s = some dt) :
    dt.secs = daysFromCivil y m d * 86400 + h * 3600 + mi * 60 + s ∧
      h ≤ 23 ∧ mi ≤ 59 ∧ s ≤ 59 := by
  unfold mkDateTime at hmk
  split at hmk
  · rename_i hc
    simp at hmk
    exact ⟨by rw [← hmk], hc.2.2.2.2.2.2.1, hc.2.2.2.2.2.2.2.1, hc.2.2.2.2.2.2.2.2⟩
  · simp at hmk

theorem hour_minute_second_of (D h mi s : Nat)
    (hh : h ≤ 23) (hmi : mi ≤ 59) (hs : s ≤ 59) :
    (DateTime.mk (D * 86400 + h * 3600 + mi * 60 + s)).hour = h ∧
    (DateTime.mk (D * 86400 + h * 3600 + mi * 60 + s)).minute = mi ∧
    (DateTime.mk (D * 86400 + h * 3600 + mi * 60 + s)).second = s := by
  unfold DateTime.hour DateTime.minute DateTime.second
  refine ⟨?_, ?_, ?_⟩ <;> simp only [] <;> omega

theorem render_ok_shape {p : RenderParams} {f : MediaFile} {tmp : String} {j : RenderJob}
    (h : render_datetime p f tmp = .ok j) :
    ∃ y mo d hh mm ss,
      resolveGroups p f = .ok (y, mo, d, hh, mm, ss) ∧
      j.datetimeS = datetimeSOf y mo d hh mm ss ∧
      j.fileext = (applyOptext (outputPath0 p) p.optext).2 ∧
      j.kwargsOutput =
        kwargsOutputOf p.args_encode (datetimeSOf y mo d hh mm ss) j.fileext := by
  unfold render_datetime at h
  split at h
  · exact absurd h (by simp)
  cases hr : resolveGroups p f with
  | error e => rw [hr] at h; simp at h
  | ok g =>
    obtain ⟨y, mo, d, hh, mm, ss⟩ := g
    rw [hr] at h
    dsimp only at h
    cases hmk : mkDateTime (digVal y) (digVal mo) (digVal d)
        (digVal hh) (digVal mm) (digVal ss) with
    | none => rw [hmk] at h; simp at h
    | some d0 =>
      rw [hmk] at h
      dsimp only at h
      cases hadd : addSecs d0 (secBeginClamped p) with
      | error e => rw [hadd] at h; simp at h
      | ok dAdv =>
        rw [hadd] at h
        dsimp only at h
        cases hv : vchainFold p.args_vfilter (PStream.videoStream p.input) with
        | error e => rw [hv] at h; simp at h
        | ok video1 =>
          rw [hv] at h
          dsimp only at h
          cases hac : achainFold p.args_afilter (audioOf p f tmp)
              (drawStages p f dAdv hh mm ss video1) with
          | error e => rw [hac] at h; simp at h
          | ok video4 =>
            rw [hac] at h
            simp at h
            subst h
            exact ⟨y, mo, d, hh, mm, ss, rfl, rfl, rfl, rfl⟩

theorem getLast_append_one (l : List Char) (a : Char) :
    (l ++ [a]).getLast? = some a := by
  rw [List.getLast?_append_of_ne_nil l (by simp)]
  rfl

theorem getLast_append_pair (l : List Char) (c1 c2 : Char) :
    (l ++ [c1, c2]).getLast? = some c2 := by
  rw [List.getLast?_append_of_ne_nil l (by simp)]
  rfl

theorem datetimeSOf_last (y mo d hh mm : List Char) (c1 c2 : Char) :
    (datetimeSOf y mo d hh mm [c1, c2]).data.getLast? = some c2 := by
  unfold datetimeSOf
  rw [String.data_append]
  exact getLast_append_pair _ c1 c2

/-- The container-specific facts about every assembled job: the `metadata`
keyword always holds the resolved creation time (with `Z` exactly for
`.dv`), `.dv` jobs also carry the `ntsc-dv` target, and the rebuilt
`datetime_s` string ends in a digit. -/
theorem render_meta {p : RenderParams} {f : MediaFile} {tmp : String} {j : RenderJob}
    (h : render_datetime p f tmp = .ok j) :
    dget j.kwargsOutput "metadata" =
      some (.str ("creation_time=" ++ j.datetimeS ++
        (if j.fileext = ".dv" then "Z" else ""))) ∧
    (j.fileext = ".dv" → dget j.kwargsOutput "target" = some (.str "ntsc-dv")) ∧
    (∃ c, j.datetimeS.data.getLast? = some c ∧ isDig c = true) := by
  obtain ⟨y, mo, d, hh, mm, ss, hres, hdts, hfx, hkw⟩ := render_ok_shape h
  obtain ⟨c1, c2, hsse, hd1, hd2⟩ := resolveGroups_ss hres
  subst hsse
  refine ⟨?_, ?_, ?_⟩
  · rw [hkw, hdts]
    unfold kwargsOutputOf
    by_cases hdv : j.fileext = ".dv"
    · rw [if_pos hdv, if_pos hdv]
      show dget (dictSet (dictSet (parse_string_to_dict p.args_encode) "metadata"
        (.str ("creation_time=" ++ datetimeSOf y mo d hh mm [c1, c2] ++ "Z")))
        "target" (.str "ntsc-dv")) "metadata" = _
      rw [dget_dictSet_ne _ _ _ _ (by decide), dget_dictSet_self]
    · rw [if_neg hdv, if_neg hdv]
      rw [show ("creation_time=" ++ datetimeSOf y mo d hh mm [c1, c2] ++ "" : String) =
        "creation_time=" ++ datetimeSOf y mo d hh mm [c1, c2] by simp]
      show dget (dictSet (parse_string_to_dict p.args_encode) "metadata"
        (.str ("creation_time=" ++ datetimeSOf y mo d hh mm [c1, c2]))) "metadata" = _
      rw [dget_dictSet_self]
  · intro hdv
    rw [hkw]
    unfold kwargsOutputOf
    rw [if_pos hdv]
    show dget (dictSet (dictSet (parse_string_to_dict p.args_encode) "metadata"
      (.str ("creation_time=" ++ datetimeSOf y mo d hh mm [c1, c2] ++ "Z")))
      "target" (.str "ntsc-dv")) "target" = _
    rw [dget_dictSet_self]
  · exact ⟨c2, by rw [hdts]; exact datetimeSOf_last y mo d hh mm c1 c2, hd2⟩

/-! ## Claim C4 -/

/-- Claim C4 (corrected): the user encode arguments are parsed into the
base output options, and then — for every output extension, not only the
tape-transfer one — the creation-time metadata (and for `.dv` also the
`ntsc-dv` target) is applied after the merge, so the creation-time pairing
can never be overridden by the user. -/
theorem claim_C4 :
    ∀ (p : RenderParams) (f : MediaFile) (tmp : String) (j : RenderJob),
      render_datetime p f tmp = .ok j →
      dget j.kwargsOutput "metadata" =
        some (.str ("creation_time=" ++ j.datetimeS ++
          (if j.fileext = ".dv" then "Z" else ""))) ∧
      (j.fileext = ".dv" → dget j.kwargsOutput "target" = some (.str "ntsc-dv")) :=
  fun _ _ _ _ h => ⟨(render_meta h).1, (render_meta h).2.1⟩

/-- Parameters of a non-tape render invocation that tries to override the
creation-time metadata through `--encode`. -/
def pOv : RenderParams :=
  { input := "in.dv", output := "out.mov", outputIsDir := false,
    datetime_opt := "2020-01-01",
    args_encode := " -metadata creation_time=1999-01-01" }

/-- The job assembled from `pOv`. -/
def jOv : RenderJob :=
  match render_datetime pOv sampleFile "t.wav" with
  | .ok j => j
  | .error _ => ⟨"", "", "", [], .videoStream "", .videoStream ""⟩

/-- Witness for C4 at the concrete override attempt. -/
theorem claim_C4_witness :
    render_datetime pOv sampleFile "t.wav" = .ok jOv ∧
    (dget jOv.kwargsOutput "metadata" =
      some (.str ("creation_time=" ++ jOv.datetimeS ++
        (if jOv.fileext = ".dv" then "Z" else ""))) ∧
    (jOv.fileext = ".dv" → dget jOv.kwargsOutput "target" = some (.str "ntsc-dv"))) :=
  ⟨rfl, claim_C4 pOv sampleFile "t.wav" jOv rfl⟩

/-- Counterexample for C4 as stated: for the non-tape extension `.mov`, the
user-supplied `-metadata creation_time=1999-01-01` is parsed into the base
options but the final job still carries the resolved creation time — the
user cannot override it. -/
theorem claim_C4_counterexample :
    dget (parse_string_to_dict " -metadata creation_time=1999-01-01") "metadata" =
      some (.str "creation_time=1999-01-01") ∧
    (render_datetime pOv sampleFile "t.wav").map
        (fun j => (j.fileext, dget j.kwargsOutput "metadata")) =
      .ok (".mov", some (.str "creation_time=2020-01-01 12:00:00")) ∧
    some (PVal.str "creation_time=2020-01-01 12:00:00") ≠
      some (PVal.str "creation_time=1999-01-01") := by
  refine ⟨rfl, rfl, by decide⟩

/-! ## Claim C1 -/

/-- Claim C1 (corrected): for every successfully executed job (encoder exit
status 0, not simulating), the embedded creation-time metadata value ends
with `Z` exactly when the output extension is `.dv` — but the tag copy-back
`copy_exifdata` runs on success for every output extension, including
`.dv`, rather than being skipped for the tape-transfer container. -/
theorem claim_C1 :
    ∀ (p : RenderParams) (f : MediaFile) (tmp : String) (j : RenderJob) (rc : Int),
      render_datetime p f tmp = .ok j → rc = 0 →
      ∃ v, dget j.kwargsOutput "metadata" = some (.str v) ∧
        endsInZ v = (j.fileext == ".dv") ∧
        copy_exifdata_called false rc = true := by
  intro p f tmp j rc h hrc
  obtain ⟨hm, -, c, hlast, hdig⟩ := render_meta h
  refine ⟨_, hm, ?_, by subst hrc; rfl⟩
  by_cases hdv : j.fileext = ".dv"
  · rw [if_pos hdv]
    simp only [endsInZ, hdv, String.data_append]
    rw [show ((".dv" : String) == ".dv") = true from rfl, decide_eq_true_eq]
    rw [List.getLast?_append_of_ne_nil _ (by simp)]
    rfl
  · rw [if_neg hdv]
    have hbeq : (j.fileext == ".dv") = false := by
      simp [hdv]
    rw [hbeq]
    rw [show ("creation_time=" ++ j.datetimeS ++ "" : String) =
      "creation_time=" ++ j.datetimeS by simp]
    simp only [endsInZ, String.data_append]
    rw [decide_eq_false_iff_not]
    have hne : j.datetimeS.data ≠ [] := by
      intro hnil
      rw [hnil] at hlast
      simp [List.getLast?] at hlast
    rw [List.getLast?_append_of_ne_nil _ hne, hlast]
    simp only [Option.some.injEq]
    intro hcz
    subst hcz
    exact absurd hdig (by decide)

/-- Parameters of a `.dv` render invocation (extension override `dv`). -/
def pDvJob : RenderParams :=
  { input := "in.dv", output := "out.mov", outputIsDir := false,
    optext := some "dv", datetime_opt := "2020-01-01" }

/-- The job assembled from `pDvJob`. -/
def jDv : RenderJob :=
  match render_datetime pDvJob sampleFile "t.wav" with
  | .ok j => j
  | .error _ => ⟨"", "", "", [], .videoStream "", .videoStream ""⟩

/-- Witness for C1 at the concrete `.dv` job. -/
theorem claim_C1_witness :
    render_datetime pDvJob sampleFile "t.wav" = .ok jDv ∧
    (∃ v, dget jDv.kwargsOutput "metadata" = some (.str v) ∧
      endsInZ v = (jDv.fileext == ".dv") ∧
      copy_exifdata_called false 0 = true) :=
  ⟨rfl, claim_C1 pDvJob sampleFile "t.wav" jDv 0 rfl rfl⟩

/-- Counterexample for C1 as stated: a successfully executed `.dv` job
whose creation-time value ends with `Z` — and on which the tag copy-back IS
performed (`copy_exifdata` is called unconditionally on success), contrary
to the claim that `.dv` outputs never receive one. -/
theorem claim_C1_counterexample :
    (render_datetime pDvJob sampleFile "t.wav").map
        (fun j => (j.fileext, dget j.kwargsOutput "metadata")) =
      .ok (".dv", some (.str "creation_time=2020-01-01 12:00:00Z")) ∧
    endsInZ "creation_time=2020-01-01 12:00:00Z" = true ∧
    copy_exifdata_called false 0 = true :=
  ⟨rfl, rfl, rfl⟩

/-! ## Claims C2 and C3 -/

/-- Parameters of a render invocation with one audio filter and no video
filters or overlays. -/
def pAud : RenderParams :=
  { input := "in.dv", output := "out.mov", outputIsDir := false,
    datetime_opt := "2020-01-01", args_afilter := ["afftdn"],
    show_date := false, show_time := false }

/-- Claim C2 (code bug, evaluated at the failing input): with the single
audio filter argument `afftdn`, the audio stream handed to the output is
the raw `a:0` selector — the filter was never applied to it — while the
video slot of the output receives the audio stream with `afftdn` applied
(the source's audio-filter loop assigns `ffmpeg.filter(audio, ...)` to
`video`). -/
theorem claim_C2 :
    (render_datetime pAud sampleFile "t.wav").map (fun j => (j.video, j.audio)) =
      .ok (.filt (.audioStream "in.dv" "a:0") (.str "afftdn") [],
        .audioStream "in.dv" "a:0") :=
  rfl

/-- Parameters of a render invocation with two video filters and no audio
filters. -/
def pVid : RenderParams :=
  { input := "in.dv", output := "out.mov", outputIsDir := false,
    datetime_opt := "2020-01-01",
    args_vfilter := ["yadif=mode=send_frame", "eq=gamma=1.3"] }

/-- The same invocation with one audio filter added. -/
def pVidA : RenderParams :=
  { input := "in.dv", output := "out.mov", outputIsDir := false,
    datetime_opt := "2020-01-01",
    args_vfilter := ["yadif=mode=send_frame", "eq=gamma=1.3"],
    args_afilter := ["afftdn"],
    show_date := true, show_time := true }

/-- Claim C3 (code bug, evaluated at the failing input): with no audio
filter arguments, the assembled video chain is exactly the user video
filter stages in order followed by the date and time overlay draws (first
conjunct, the claimed shape; the drawtext keyword dictionaries are
existential because their font-size rational is payload, not ordering) —
but adding the single audio filter argument `afftdn` replaces the entire
video chain by the audio stream with `afftdn` applied (second conjunct). -/
theorem claim_C3 :
    (∃ kwd kwt : Dict,
      (render_datetime pVid sampleFile "t.wav").map (fun j => j.video) =
        .ok (.drawtext
          (.drawtext
            (.filt
              (.filt (.videoStream "in.dv") (.str "yadif") [("mode", .str "send_frame")])
              (.str "eq") [("gamma", .str "1.3")])
            "w*0.02" "h-(2*lh)" kwd)
          "(w-tw)-(w*0.02)" "h-(2*lh)" kwt)) ∧
    (render_datetime pVidA sampleFile "t.wav").map (fun j => j.video) =
      .ok (.filt (.audioStream "in.dv" "a:0") (.str "afftdn") []) :=
  ⟨⟨_, _, rfl⟩, rfl⟩

/-! ## Claim C6 -/

/-- Claim C6 (confirmed): the clock offset is applied only to timestamps
resolved from file metadata; when the explicit datetime string parses, the
resolved instant is exactly the parsed instant, for every offset. -/
theorem claim_C6 :
    (∀ (f : MediaFile) (s : String) (off : Option String) (dt : DateTime),
      get_datetime_fromstr s = .ok (some dt) → get_datetime f s off = .ok (some dt)) ∧
    (∀ (f : MediaFile) (s : String) (off : Option String),
      get_datetime_fromstr s = .ok none →
        get_datetime f s off = get_datetime_fromfile f off) := by
  constructor
  · intro f s off dt h; simp [get_datetime, h]
  · intro f s off h; simp [get_datetime, h]

/-- Witness for C6: the spec's end-to-end example — explicit `2020-01-01`
resolves to noon of that day even though an offset is supplied. -/
theorem claim_C6_witness :
    get_datetime_fromstr "2020-01-01" = .ok (some ⟨63713476800⟩) ∧
    get_datetime sampleFile "2020-01-01" (some " -9:00") = .ok (some ⟨63713476800⟩) :=
  ⟨rfl, claim_C6.1 sampleFile "2020-01-01" (some " -9:00") ⟨63713476800⟩ rfl⟩

/-! ## Claim C10 -/

/-- Claim C10 (corrected): an offset string whose `strip()` does not match
the code's offset pattern is silently ignored — the metadata-derived
timestamp is returned uncorrected and no error is raised.  (The claim's
description of the pattern as `[sign]H:MM[:SS]` is amended: the pattern's
sign class `[+|-]` also accepts a literal `|`, treated as positive.) -/
theorem claim_C10 :
    ∀ (f : MediaFile) (o : String), matchOffset (pyStrip o.data) = none →
      get_datetime_fromfile f (some o) = get_datetime_fromfile f none := by
  intro f o h
  cases hc : get_datetime_fromstr f.recordedDate with
  | error e => simp [get_datetime_fromfile, hc]
  | ok od =>
    cases od with
    | some dt => simp [get_datetime_fromfile, hc, applyOffset, h]
    | none =>
      cases hd : f.dateTimeOriginal with
      | none => simp [get_datetime_fromfile, hc, hd]
      | some s2 =>
        cases hc2 : get_datetime_fromstr s2 with
        | error e => simp [get_datetime_fromfile, hc, hd, hc2]
        | ok od2 => cases od2 <;> simp [get_datetime_fromfile, hc, hd, hc2, applyOffset, h]

/-- Witness for C10: both of the claim's examples, `-10:00` (two-digit
hour) and `2h`, fail the pattern and leave the resolved timestamp of the
sample file untouched. -/
theorem claim_C10_witness :
    (matchOffset (pyStrip ("-10:00").data) = none ∧
      get_datetime_fromfile sampleFile (some "-10:00") =
        get_datetime_fromfile sampleFile none) ∧
    (matchOffset (pyStrip ("2h").data) = none ∧
      get_datetime_fromfile sampleFile (some "2h") =
        get_datetime_fromfile sampleFile none) :=
  ⟨⟨rfl, claim_C10 sampleFile "-10:00" rfl⟩, ⟨rfl, claim_C10 sampleFile "2h" rfl⟩⟩

/-- Counterexample for C10 as stated: `|2:00` does not match the claim's
pattern `[sign]H:MM[:SS]` (a `|` is not a sign), yet the code does not
ignore it — the resolved `2005-07-02 09:48:06` is shifted two hours
forward. -/
theorem claim_C10_counterexample :
    claimOffsetPattern "|2:00" = false ∧
    get_datetime_fromfile sampleFile (some "|2:00") = .ok (some ⟨63255901686⟩) ∧
    get_datetime_fromfile sampleFile none = .ok (some ⟨63255894486⟩) :=
  ⟨rfl, rfl, rfl⟩

/-! ## Claim C8 -/

/-- Claim C8 (corrected): applying the offset `+2:00` and then `-2:00`
returns the original instant — for every timestamp whose two-hour shift
stays inside the range a Python `datetime` can represent (at or before
9999-12-31 21:59:59); at the very end of the range the first application
raises `OverflowError` instead. -/
theorem claim_C8 :
    ∀ dt : DateTime, (dt.secs : Int) + 7200 ≤ (maxSecs : Int) →
      ((applyOffset dt (some "+2:00")).bind fun d2 => applyOffset d2 (some "-2:00")) =
        .ok dt := by
  have haddGen : ∀ (m : Nat) (k : Int), 0 ≤ (m : Int) + k → (m : Int) + k ≤ (maxSecs : Int) →
      addSecs ⟨m⟩ k = .ok ⟨((m : Int) + k).toNat⟩ := by
    intro m k hlo hhi
    show (if 0 ≤ (m : Int) + k ∧ (m : Int) + k ≤ (maxSecs : Int) then
        Except.ok (⟨((m : Int) + k).toNat⟩ : DateTime)
      else Except.error PyErr.overflowError) = .ok ⟨((m : Int) + k).toNat⟩
    rw [if_pos ⟨hlo, hhi⟩]
  intro dt hbound
  obtain ⟨n⟩ := dt
  have hbound2 : (n : Int) + 7200 ≤ (maxSecs : Int) := hbound
  have h1 : matchOffset (pyStrip ("+2:00").data) = some (some '+', 2, 0, none) := rfl
  have h2 : matchOffset (pyStrip ("-2:00").data) = some (some '-', 2, 0, none) := rfl
  have e1 : applyOffset ⟨n⟩ (some "+2:00") = addSecs ⟨n⟩ 7200 := by
    simp [applyOffset, h1]
  have e2 : applyOffset ⟨n + 7200⟩ (some "-2:00") = addSecs ⟨n + 7200⟩ (-7200) := by
    simp [applyOffset, h2]
  have hv1 : (((n : Int) + 7200)).toNat = n + 7200 := by omega
  have hv2 : (((n + 7200 : Nat) : Int) + (-7200)).toNat = n := by omega
  have hadd1 : addSecs ⟨n⟩ 7200 = .ok ⟨n + 7200⟩ :=
    (haddGen n 7200 (by omega) hbound2).trans (by rw [hv1])
  have hadd2 : addSecs ⟨n + 7200⟩ (-7200) = .ok ⟨n⟩ :=
    (haddGen (n + 7200) (-7200) (by omega) (by push_cast; omega)).trans (by rw [hv2])
  have hbind : ∀ (x : DateTime) (fn : DateTime → Except PyErr DateTime),
      Except.bind (Except.ok x) fn = fn x := fun _ _ => rfl
  calc (applyOffset ⟨n⟩ (some "+2:00")).bind (fun d2 => applyOffset d2 (some "-2:00"))
      = (Except.ok (⟨n + 7200⟩ : DateTime)).bind
          (fun d2 => applyOffset d2 (some "-2:00")) := by rw [e1, hadd1]
    _ = applyOffset ⟨n + 7200⟩ (some "-2:00") := by rw [hbind]
    _ = addSecs ⟨n + 7200⟩ (-7200) := e2
    _ = .ok ⟨n⟩ := hadd2

/-- Witness for C8: the round trip at the sample instant
2005-07-02 09:48:06. -/
theorem claim_C8_witness :
    ((63255894486 : Nat) : Int) + 7200 ≤ (maxSecs : Int) ∧
    ((applyOffset ⟨63255894486⟩ (some "+2:00")).bind fun d2 =>
      applyOffset d2 (some "-2:00")) = .ok ⟨63255894486⟩ :=
  ⟨by decide, claim_C8 ⟨63255894486⟩ (by decide)⟩

/-- Counterexample for C8 as stated: at `datetime.max` (9999-12-31
23:59:59) the `+2:00` application overflows, so the round trip does not
return the original instant. -/
theorem claim_C8_counterexample :
    ((applyOffset ⟨maxSecs⟩ (some "+2:00")).bind fun d2 =>
      applyOffset d2 (some "-2:00")) = .error .overflowError ∧
    ((applyOffset ⟨maxSecs⟩ (some "+2:00")).bind fun d2 =>
      applyOffset d2 (some "-2:00")) ≠ .ok ⟨maxSecs⟩ := by
  have h : ((applyOffset ⟨maxSecs⟩ (some "+2:00")).bind fun d2 =>
      applyOffset d2 (some "-2:00")) = .error .overflowError := rfl
  exact ⟨h, by rw [h]; simp⟩

/-! ## Claim C7 -/

/-- Evaluation of `get_datetime_fromstr` on a string of exactly the shape
`yyyy-mm-dd`: the time parts default to 12:00:00. -/
theorem fromstr_dateOnly_eval (y1 y2 y3 y4 m1 m2 d1 d2 : Char)
    (h1 : isDig y1 = true) (h2 : isDig y2 = true) (h3 : isDig y3 = true)
    (h4 : isDig y4 = true) (h5 : isDig m1 = true) (h6 : isDig m2 = true)
    (h7 : isDig d1 = true) (h8 : isDig d2 = true) :
    get_datetime_fromstr ⟨[y1, y2, y3, y4, '-', m1, m2, '-', d1, d2]⟩ =
      match mkDateTime (digVal [y1, y2, y3, y4]) (digVal [m1, m2]) (digVal [d1, d2])
          12 0 0 with
      | some dt => .ok (some dt)
      | none => .error .valueError := by
  have hmatch : matchLenientDT [y1, y2, y3, y4, '-', m1, m2, '-', d1, d2] =
      some ([y1, y2, y3, y4], [m1, m2], [d1, d2], tryTime []) := by
    unfold matchLenientDT
    exact matchDTWith_shape10 dateSep y1 y2 y3 y4 m1 m2 d1 d2 '-' '-' []
      h1 h2 h3 h4 h5 h6 h7 h8 rfl rfl
  unfold get_datetime_fromstr
  rw [show (⟨[y1, y2, y3, y4, '-', m1, m2, '-', d1, d2]⟩ : String).data =
    [y1, y2, y3, y4, '-', m1, m2, '-', d1, d2] from rfl]
  rw [hmatch]
  rw [show tryTime ([] : List Char) = none from rfl]
  dsimp only
  rw [show digVal ['1', '2'] = 12 from rfl, show digVal ['0', '0'] = 0 from rfl]

/-- Evaluation of `get_datetime_fromstr` on a string of exactly the shape
`yyyy-mm-dd HH:MM`: the seconds default to 00. -/
theorem fromstr_dateHM_eval (y1 y2 y3 y4 m1 m2 d1 d2 e1 e2 n1 n2 : Char)
    (h1 : isDig y1 = true) (h2 : isDig y2 = true) (h3 : isDig y3 = true)
    (h4 : isDig y4 = true) (h5 : isDig m1 = true) (h6 : isDig m2 = true)
    (h7 : isDig d1 = true) (h8 : isDig d2 = true)
    (h9 : isDig e1 = true) (h10 : isDig e2 = true)
    (h11 : isDig n1 = true) (h12 : isDig n2 = true) :
    get_datetime_fromstr
        ⟨[y1, y2, y3, y4, '-', m1, m2, '-', d1, d2, ' ', e1, e2, ':', n1, n2]⟩ =
      match mkDateTime (digVal [y1, y2, y3, y4]) (digVal [m1, m2]) (digVal [d1, d2])
          (digVal [e1, e2]) (digVal [n1, n2]) 0 with
      | some dt => .ok (some dt)
      | none => .error .valueError := by
  have hmatch : matchLenientDT
      [y1, y2, y3, y4, '-', m1, m2, '-', d1, d2, ' ', e1, e2, ':', n1, n2] =
      some ([y1, y2, y3, y4], [m1, m2], [d1, d2],
        tryTime [' ', e1, e2, ':', n1, n2]) := by
    unfold matchLenientDT
    exact matchDTWith_shape10 dateSep y1 y2 y3 y4 m1 m2 d1 d2 '-' '-'
      [' ', e1, e2, ':', n1, n2] h1 h2 h3 h4 h5 h6 h7 h8 rfl rfl
  have htt : tryTime [' ', e1, e2, ':', n1, n2] =
      some ([e1, e2], [n1, n2], trySS []) := by
    simp [tryTime, dig2, h9, h10, h11, h12]
  unfold get_datetime_fromstr
  rw [show (⟨[y1, y2, y3, y4, '-', m1, m2, '-', d1, d2, ' ', e1, e2, ':', n1, n2]⟩ :
    String).data =
    [y1, y2, y3, y4, '-', m1, m2, '-', d1, d2, ' ', e1, e2, ':', n1, n2] from rfl]
  rw [hmatch, htt]
  rw [show trySS ([] : List Char) = none from rfl]
  dsimp only
  rw [show digVal ['0', '0'] = 0 from rfl]

/-- Claim C7 (confirmed): resolution of a `yyyy-mm-dd` string with no time
component yields the time 12:00:00 (noon), and resolution of a
`yyyy-mm-dd HH:MM` string with no seconds yields seconds 00. -/
theorem claim_C7 :
    (∀ (s : String) (dt : DateTime), isDateOnlyShape s →
        get_datetime_fromstr s = .ok (some dt) →
        dt.hour = 12 ∧ dt.minute = 0 ∧ dt.second = 0) ∧
    (∀ (s : String) (dt : DateTime), isDateHMShape s →
        get_datetime_fromstr s = .ok (some dt) → dt.second = 0) := by
  constructor
  · rintro s dt ⟨y1, y2, y3, y4, m1, m2, d1, d2, hs, h1, h2, h3, h4, h5, h6, h7, h8⟩ hok
    have hs2 : s = ⟨[y1, y2, y3, y4, '-', m1, m2, '-', d1, d2]⟩ := by
      cases s; simp at hs; rw [hs]
    rw [hs2, fromstr_dateOnly_eval y1 y2 y3 y4 m1 m2 d1 d2
      h1 h2 h3 h4 h5 h6 h7 h8] at hok
    cases hmk : mkDateTime (digVal [y1, y2, y3, y4]) (digVal [m1, m2])
        (digVal [d1, d2]) 12 0 0 with
    | none => rw [hmk] at hok; simp at hok
    | some dt0 =>
      rw [hmk] at hok
      simp at hok
      subst hok
      obtain ⟨hsecs, hhb, hmib, hsb⟩ := mkDateTime_inv hmk
      unfold DateTime.hour DateTime.minute DateTime.second
      omega
  · rintro s dt ⟨y1, y2, y3, y4, m1, m2, d1, d2, e1, e2, n1, n2, hs,
      h1, h2, h3, h4, h5, h6, h7, h8, h9, h10, h11, h12⟩ hok
    have hs2 : s = ⟨[y1, y2, y3, y4, '-', m1, m2, '-', d1, d2, ' ', e1, e2, ':', n1, n2]⟩ := by
      cases s; simp at hs; rw [hs]
    rw [hs2, fromstr_dateHM_eval y1 y2 y3 y4 m1 m2 d1 d2 e1 e2 n1 n2
      h1 h2 h3 h4 h5 h6 h7 h8 h9 h10 h11 h12] at hok
    cases hmk : mkDateTime (digVal [y1, y2, y3, y4]) (digVal [m1, m2])
        (digVal [d1, d2]) (digVal [e1, e2]) (digVal [n1, n2]) 0 with
    | none => rw [hmk] at hok; simp at hok
    | some dt0 =>
      rw [hmk] at hok
      simp at hok
      subst hok
      obtain ⟨hsecs, hhb, hmib, hsb⟩ := mkDateTime_inv hmk
      unfold DateTime.second
      omega

/-- Witness for C7: `2020-01-01` resolves to 12:00:00 and
`2020-01-01 09:30` resolves with seconds 00. -/
theorem claim_C7_witness :
    (isDateOnlyShape "2020-01-01" ∧
      get_datetime_fromstr "2020-01-01" = .ok (some ⟨63713476800⟩) ∧
      (⟨63713476800⟩ : DateTime).hour = 12 ∧ (⟨63713476800⟩ : DateTime).minute = 0 ∧
        (⟨63713476800⟩ : DateTime).second = 0) ∧
    (isDateHMShape "2020-01-01 09:30" ∧
      get_datetime_fromstr "2020-01-01 09:30" = .ok (some ⟨63713467800⟩) ∧
      (⟨63713467800⟩ : DateTime).second = 0) := by
  constructor
  · refine ⟨?_, rfl, ?_⟩
    · exact ⟨'2', '0', '2', '0', '0', '1', '0', '1', rfl,
        rfl, rfl, rfl, rfl, rfl, rfl, rfl, rfl⟩
    · exact claim_C7.1 "2020-01-01" ⟨63713476800⟩
        ⟨'2', '0', '2', '0', '0', '1', '0', '1', rfl,
          rfl, rfl, rfl, rfl, rfl, rfl, rfl, rfl⟩ rfl
  · refine ⟨?_, rfl, ?_⟩
    · exact ⟨'2', '0', '2', '0', '0', '1', '0', '1', '0', '9', '3', '0', rfl,
        rfl, rfl, rfl, rfl, rfl, rfl, rfl, rfl, rfl, rfl, rfl, rfl⟩
    · exact claim_C7.2 "2020-01-01 09:30" ⟨63713467800⟩
        ⟨'2', '0', '2', '0', '0', '1', '0', '1', '0', '9', '3', '0', rfl,
          rfl, rfl, rfl, rfl, rfl, rfl, rfl, rfl, rfl, rfl, rfl, rfl⟩ rfl

/-! ## Claim C9 -/

/-- Claim C9 (amended): `-` and `:` are interchangeable as date separators
in the rename/touch path's parser (`get_datetime_fromstr`), but the
overlay-render path's explicit parser accepts only `-` — a `:` after the
year makes its pattern fail. -/
theorem claim_C9 :
    (∀ (y1 y2 y3 y4 m1 m2 d1 d2 sa sb : Char) (rest : List Char),
      isDig y1 = true → isDig y2 = true → isDig y3 = true → isDig y4 = true →
      isDig m1 = true → isDig m2 = true → isDig d1 = true → isDig d2 = true →
      (sa = '-' ∨ sa = ':') → (sb = '-' ∨ sb = ':') →
      get_datetime_fromstr
          ⟨y1 :: y2 :: y3 :: y4 :: sa :: m1 :: m2 :: sb :: d1 :: d2 :: rest⟩ =
        get_datetime_fromstr
          ⟨y1 :: y2 :: y3 :: y4 :: '-' :: m1 :: m2 :: '-' :: d1 :: d2 :: rest⟩) ∧
    (∀ (c1 c2 c3 c4 : Char) (rest : List Char),
      matchStrictDT (c1 :: c2 :: c3 :: c4 :: ':' :: rest) = none) := by
  constructor
  · intro y1 y2 y3 y4 m1 m2 d1 d2 sa sb rest h1 h2 h3 h4 h5 h6 h7 h8 hsa hsb
    have ha : dateSep sa = true := by rcases hsa with rfl | rfl <;> rfl
    have hb : dateSep sb = true := by rcases hsb with rfl | rfl <;> rfl
    have e1 : matchLenientDT (y1 :: y2 :: y3 :: y4 :: sa :: m1 :: m2 :: sb :: d1 :: d2 :: rest) =
        some ([y1, y2, y3, y4], [m1, m2], [d1, d2], tryTime rest) := by
      unfold matchLenientDT
      exact matchDTWith_shape10 dateSep y1 y2 y3 y4 m1 m2 d1 d2 sa sb rest
        h1 h2 h3 h4 h5 h6 h7 h8 ha hb
    have e2 : matchLenientDT (y1 :: y2 :: y3 :: y4 :: '-' :: m1 :: m2 :: '-' :: d1 :: d2 :: rest) =
        some ([y1, y2, y3, y4], [m1, m2], [d1, d2], tryTime rest) := by
      unfold matchLenientDT
      exact matchDTWith_shape10 dateSep y1 y2 y3 y4 m1 m2 d1 d2 '-' '-' rest
        h1 h2 h3 h4 h5 h6 h7 h8 rfl rfl
    unfold get_datetime_fromstr
    rw [show (⟨y1 :: y2 :: y3 :: y4 :: sa :: m1 :: m2 :: sb :: d1 :: d2 :: rest⟩ :
        String).data = y1 :: y2 :: y3 :: y4 :: sa :: m1 :: m2 :: sb :: d1 :: d2 :: rest
      from rfl]
    rw [show (⟨y1 :: y2 :: y3 :: y4 :: '-' :: m1 :: m2 :: '-' :: d1 :: d2 :: rest⟩ :
        String).data = y1 :: y2 :: y3 :: y4 :: '-' :: m1 :: m2 :: '-' :: d1 :: d2 :: rest
      from rfl]
    rw [e1, e2]
  · intro c1 c2 c3 c4 rest
    unfold matchStrictDT matchDTWith
    cases hd : dig4 (c1 :: c2 :: c3 :: c4 :: ':' :: rest) with
    | none => simp [hd]
    | some pr =>
      obtain ⟨g, r⟩ := pr
      obtain ⟨a1, a2, a3, a4, hl, hg, _, _, _, _⟩ := dig4_inv hd
      simp at hl
      obtain ⟨_, _, _, _, hr⟩ := hl
      simp [hd, sepBy, ← hr]

/-- Witness for C9: `2020:01:01` and `2020-01-01` parse identically in the
rename/touch path, while the render path's pattern rejects the former. -/
theorem claim_C9_witness :
    get_datetime_fromstr "2020:01:01" = get_datetime_fromstr "2020-01-01" ∧
    matchStrictDT ("2020:01:01").data = none := by
  constructor
  · exact claim_C9.1 '2' '0' '2' '0' '0' '1' '0' '1' ':' ':' []
      rfl rfl rfl rfl rfl rfl rfl rfl (Or.inr rfl) (Or.inr rfl)
  · rfl

/-! ## Claim C5 -/

theorem splitView (c : Char) (l : List Char) :
    (l.count c = 0 ∧ splitFirst c l = (l, none) ∧ splitOnChar c l = [l]) ∨
    (∃ k r, splitFirst c l = (k, some r) ∧ splitOnChar c l = k :: splitOnChar c r ∧
      l.count c = r.count c + 1) := by
  induction l with
  | nil => left; exact ⟨by simp, rfl, rfl⟩
  | cons x t ih =>
    by_cases hx : x = c
    · subst hx
      right
      exact ⟨[], t, by simp [splitFirst], by simp [splitOnChar], by simp⟩
    · rcases ih with ⟨h0, hf, hs⟩ | ⟨k, r, hf, hs, hc⟩
      · left
        refine ⟨by simp [List.count_cons, hx, h0], ?_, ?_⟩
        · simp [splitFirst, hx, hf]
        · simp [splitOnChar, hx, hs]
      · right
        refine ⟨x :: k, r, ?_, ?_, ?_⟩
        · simp [splitFirst, hx, hf]
        · simp [splitOnChar, hx, hs]
        · simp [List.count_cons, hx, hc]

theorem splitOnChar_of_count0 {c : Char} {l : List Char} (h : l.count c = 0) :
    splitOnChar c l = [l] ∧ splitFirst c l = (l, none) := by
  rcases splitView c l with ⟨-, hf, hs⟩ | ⟨k, r, -, -, hc⟩
  · exact ⟨hs, hf⟩
  · omega

theorem splitOnChar_of_count1 {c : Char} {l : List Char} (h : l.count c = 1) :
    ∃ k v, splitOnChar c l = [k, v] ∧ splitFirst c l = (k, some v) := by
  rcases splitView c l with ⟨h0, -, -⟩ | ⟨k, r, hf, hs, hc⟩
  · omega
  · have hr : r.count c = 0 := by omega
    obtain ⟨hs2, -⟩ := splitOnChar_of_count0 hr
    exact ⟨k, r, by rw [hs, hs2], hf⟩

theorem splitOnChar_of_count2 {c : Char} {l : List Char} (h : 2 ≤ l.count c) :
    ∃ a b c3 rest, splitOnChar c l = a :: b :: c3 :: rest := by
  rcases splitView c l with ⟨h0, -, -⟩ | ⟨k, r, -, hs, hc⟩
  · omega
  · have hr : 1 ≤ r.count c := by omega
    rcases splitView c r with ⟨h0, -, -⟩ | ⟨k2, r2, -, hs2, -⟩
    · omega
    · rcases splitView c r2 with ⟨-, -, hs3⟩ | ⟨k3, r3, -, hs3, -⟩ <;>
        exact ⟨k, k2, _, _, by rw [hs, hs2, hs3]⟩

theorem foldSegs_eq (segs : List (List Char)) (d : Dict)
    (h : ∀ pp ∈ segs, (pyStrip pp).count '=' ≤ 1) :
    segs.foldlM (fun d pair =>
      let pp := pyStrip pair
      match splitOnChar '=' pp with
      | [k] => Except.ok (dictSet d ⟨k⟩ .boolTrue)
      | [k, v] => Except.ok (dictSet d ⟨pyStrip k⟩ (.str ⟨pyStrip v⟩))
      | _ => Except.error PyErr.valueError) d =
    .ok (segs.foldl (fun d pair =>
      let pp := pyStrip pair
      match splitFirst '=' pp with
      | (k, some v) => dictSet d ⟨pyStrip k⟩ (.str ⟨pyStrip v⟩)
      | (_, none) => dictSet d ⟨pp⟩ .boolTrue) d) := by
  induction segs generalizing d with
  | nil => rfl
  | cons pp rest ih =>
    have hp : (pyStrip pp).count '=' ≤ 1 := h pp (by simp)
    have hrest : ∀ q ∈ rest, (pyStrip q).count '=' ≤ 1 := fun q hq => h q (by simp [hq])
    simp only [List.foldlM_cons, List.foldl_cons]
    by_cases h0 : (pyStrip pp).count '=' = 0
    · obtain ⟨hsp, hff⟩ := splitOnChar_of_count0 h0
      rw [hsp, hff]
      exact ih _ hrest
    · have h1 : (pyStrip pp).count '=' = 1 := by omega
      obtain ⟨k, v, hsp, hff⟩ := splitOnChar_of_count1 h1
      rw [hsp, hff]
      exact ih _ hrest

theorem foldSegs_err (segs : List (List Char))
    (h : ∃ pp ∈ segs, 2 ≤ (pyStrip pp).count '=') (d : Dict) :
    segs.foldlM (fun d pair =>
      let pp := pyStrip pair
      match splitOnChar '=' pp with
      | [k] => Except.ok (dictSet d ⟨k⟩ .boolTrue)
      | [k, v] => Except.ok (dictSet d ⟨pyStrip k⟩ (.str ⟨pyStrip v⟩))
      | _ => Except.error PyErr.valueError) d = .error .valueError := by
  induction segs generalizing d with
  | nil => obtain ⟨pp, hmem, -⟩ := h; simp at hmem
  | cons q rest ih =>
    obtain ⟨pp, hmem, hc⟩ := h
    simp only [List.foldlM_cons]
    rcases List.mem_cons.mp hmem with rfl | hmem2
    · obtain ⟨a, b, c3, r4, hsp⟩ := splitOnChar_of_count2 hc
      rw [hsp]
      rfl
    · by_cases hq : 2 ≤ (pyStrip q).count '='
      · obtain ⟨a, b, c3, r4, hsp⟩ := splitOnChar_of_count2 hq
        rw [hsp]
        rfl
      · have hex : ∃ pp2 ∈ rest, 2 ≤ (pyStrip pp2).count '=' := ⟨pp, hmem2, hc⟩
        by_cases h0 : (pyStrip q).count '=' = 0
        · obtain ⟨hsp, -⟩ := splitOnChar_of_count0 h0
          rw [hsp]
          exact ih hex _
        · have h1 : (pyStrip q).count '=' = 1 := by omega
          obtain ⟨k, v, hsp, -⟩ := splitOnChar_of_count1 h1
          rw [hsp]
          exact ih hex _

/-- Claim C5 (corrected): the filter-argument parse splits on the first `=`
into name and parameter list and splits the list on `:`; the example
evaluates as claimed, and a parameter segment with no `=` becomes a key
with value `True` — but a segment is split into key/value only when it
carries exactly ONE `=`; a segment with two or more `=` raises `ValueError`
(the unpacking of `pair.split('=')` fails) instead of splitting on the
first `=`. -/
theorem claim_C5 :
    parse_filter_args_to_dict "scale=w=iw/2:h=ih/2" =
      .ok [("name", .str "scale"), ("w", .str "iw/2"), ("h", .str "ih/2")] ∧
    (∀ s : String, (∀ k ∈ segEqCounts s, k ≤ 1) →
      parse_filter_args_to_dict s = .ok (claimFilterSplit s)) ∧
    (∀ s : String, (∃ k ∈ segEqCounts s, 2 ≤ k) →
      parse_filter_args_to_dict s = .error .valueError) := by
  refine ⟨rfl, ?_, ?_⟩
  · intro s h
    unfold parse_filter_args_to_dict claimFilterSplit
    unfold segEqCounts at h
    cases hsp : splitFirst '=' s.data with
    | mk p0 rest =>
      rw [hsp] at h
      cases rest with
      | none => rfl
      | some r =>
        have h2 : ∀ pp ∈ splitOnChar ':' r, (pyStrip pp).count '=' ≤ 1 := by
          intro pp hpp
          exact h _ (List.mem_map_of_mem _ hpp)
        exact foldSegs_eq (splitOnChar ':' r) _ h2
  · intro s h
    unfold parse_filter_args_to_dict
    unfold segEqCounts at h
    cases hsp : splitFirst '=' s.data with
    | mk p0 rest =>
      rw [hsp] at h
      cases rest with
      | none => obtain ⟨k, hk, -⟩ := h; simp at hk
      | some r =>
        obtain ⟨k, hk, hk2⟩ := h
        obtain ⟨pp, hpp, hpc⟩ := List.mem_map.mp hk
        exact foldSegs_err (splitOnChar ':' r) ⟨pp, hpp, by rw [hpc]; exact hk2⟩ _

/-- Witness for C5: the code's second documented example and the erroring
multi-`=` segment. -/
theorem claim_C5_witness :
    parse_filter_args_to_dict "crop=w=iw/2:exact" =
      .ok (claimFilterSplit "crop=w=iw/2:exact") ∧
    parse_filter_args_to_dict "f=a=b=c" = .error .valueError :=
  ⟨claim_C5.2.1 "crop=w=iw/2:exact" (by decide),
   claim_C5.2.2 "f=a=b=c" (by decide)⟩

/-- Counterexample for C5 as stated: on `f=a=b=c` the claimed first-`=`
segment split would yield `{name: f, a: "b=c"}`, but the code raises
`ValueError`. -/
theorem claim_C5_counterexample :
    parse_filter_args_to_dict "f=a=b=c" = .error .valueError ∧
    claimFilterSplit "f=a=b=c" = [("name", .str "f"), ("a", .str "b=c")] :=
  ⟨rfl, rfl⟩

/-- Parameters of a render invocation whose explicit datetime uses `:` as
the date separator. -/
def pColon : RenderParams :=
  { input := "in.dv", output := "out.mov", outputIsDir := false,
    datetime_opt := "2020:01:01" }

/-- The same render invocation with `-` as the date separator. -/
def pDash : RenderParams :=
  { input := "in.dv", output := "out.mov", outputIsDir := false,
    datetime_opt := "2020-01-01" }

/-- Counterexample for C9 as stated: with no usable metadata,
`--datetime "2020:01:01"` resolves in the rename/touch path (to the same
instant as `2020-01-01`), but the overlay-render path fails to resolve it
and errors out, so the separators are not interchangeable in every
operation. -/
theorem claim_C9_counterexample :
    get_datetime emptyFile "2020:01:01" none = .ok (some ⟨63713476800⟩) ∧
    get_datetime emptyFile "2020-01-01" none = .ok (some ⟨63713476800⟩) ∧
    render_datetime pColon emptyFile "t.wav" = .error .noDatetime ∧
    (render_datetime pDash emptyFile "t.wav").isOk = true := by
  refine ⟨rfl, rfl, rfl, rfl⟩

end DV
